import Mathlib

/-!
Verification development for the ASP browser-automation repository.

The Python sources are shallowly embedded:
- `src/browser/ws_helper.py`: WS status classification (`get_ws_status`),
  reconnect sequence (`reconnect_ws` with `wait_for_ws_connected`),
  overlay dismissal (`dismiss_interaction_modal`), keep-alive clicking
  (`click_in_iframe`).
- `src/main.py`: configuration resolution (`load_instance_configurations`),
  the launch/stagger loop of `start_browser_instances`, the
  `signal_handler` shutdown, and the `health_check` endpoint.
- `src/utils/cookie_handler.py`: `convert_cookie_editor_to_playwright`.
- `src/utils/common.py`: `clean_env_value`.

Page-driver effects (element lookup, visibility waits, mouse moves) are
modelled by explicit environment records; randomness (`random.randint`)
by a stream of natural-number draws; wall-clock time by integer second
counts. Exceptions raised by automation primitives are modelled by
boolean flags in the environments, since every embedded function wraps
its body in a catch-all that collapses failure to a sentinel value.
-/

namespace ASP

/-- Connection status values returned by `get_ws_status`
(src/browser/ws_helper.py lines 20-46). -/
inductive WsStatus where
  | CONNECTED
  | IDLE
  | CONNECTING
  | UNKNOWN
deriving DecidableEq, Repr

/-- Whether the first character list is an initial segment of the second. -/
def startsWithChars : List Char → List Char → Bool
  | [], _ => true
  | _ :: _, [] => false
  | p :: ps, h :: hs => p = h && startsWithChars ps hs

/-- Whether `pat` occurs contiguously inside the second list. -/
def hasSubChars (pat : List Char) : List Char → Bool
  | [] => pat.isEmpty
  | h :: hs => startsWithChars pat (h :: hs) || hasSubChars pat hs

/-- Python `pat in hay` substring membership, as used by
`"CONNECTED" in text.upper()` in `get_ws_status`. -/
def containsSub (hay pat : String) : Bool :=
  hasSubChars pat.data hay.data

/-- Python `str.upper()` on the character sequence of a string. -/
def pyUpper (s : String) : String :=
  ⟨s.data.map Char.toUpper⟩

/-- Python `str.lower()` on the character sequence of a string. -/
def pyLower (s : String) : String :=
  ⟨s.data.map Char.toLower⟩

/-- Environment for one `get_ws_status` call: whether `page.frame_locator`
yields a usable frame, whether some automation primitive raises, whether the
status indicator is visible within the 3s wait, and the indicator's
`text_content()` (none models a missing text). -/
structure StatusEnv where
  raises : Bool
  frameOk : Bool
  indicatorVisible : Bool
  statusText : Option String
deriving DecidableEq, Repr

/-- Embedding of `get_ws_status` (src/browser/ws_helper.py lines 20-46):
locate the Preview iframe, wait for the WS status indicator, and classify
its text by the membership tests `CONNECTED`/`IDLE`/`CONNECTING` in order;
every failure path collapses to UNKNOWN via the catch-all handler. -/
def get_ws_status (env : StatusEnv) : WsStatus :=
  if env.raises then .UNKNOWN
  else if !env.frameOk then .UNKNOWN
  else if env.indicatorVisible then
    match env.statusText with
    | some text =>
      if containsSub (pyUpper text) "CONNECTED" then .CONNECTED
      else if containsSub (pyUpper text) "IDLE" then .IDLE
      else if containsSub (pyUpper text) "CONNECTING" then .CONNECTING
      else .UNKNOWN
    | none => .UNKNOWN
  else .UNKNOWN

/-- A Cookie-Editor export entry (src/utils/cookie_handler.py). Python dict
keys that may be absent become `Option` fields; `session` uses
`cookie.get('session', False)` so absence is `none`;
`expirationDate` distinguishes an absent key (`none`) from a key whose
value is Python `None` (`some none`); the numeric value is carried as an
`Int` (the code truncates it with `int(...)`). -/
structure EditorCookie where
  name : Option String
  value : Option String
  domain : Option String
  path : Option String
  httpOnly : Option Bool
  secure : Option Bool
  session : Option Bool
  expirationDate : Option (Option Int)
  sameSite : Option String
deriving DecidableEq, Repr

/-- A Playwright cookie dict as assembled by
`convert_cookie_editor_to_playwright`; each field is `some` exactly when the
corresponding key was set on `pw_cookie`. -/
structure PwCookie where
  name : Option String
  value : Option String
  domain : Option String
  path : Option String
  httpOnly : Option Bool
  secure : Option Bool
  expires : Option Int
  sameSite : Option String
deriving DecidableEq, Repr

/-- The first loop of the per-cookie body (src/utils/cookie_handler.py
lines 10-12): copy the six direct keys that are present in the input. -/
def convertBase (c : EditorCookie) : PwCookie :=
  { name := c.name, value := c.value, domain := c.domain, path := c.path
  , httpOnly := c.httpOnly, secure := c.secure
  , expires := none, sameSite := none }

/-- The expires derivation (src/utils/cookie_handler.py lines 13-19): a
session cookie gets -1; otherwise a present `expirationDate` is truncated
to an int, with a Python-None date also collapsing to -1. -/
def applyExpires (c : EditorCookie) (pw : PwCookie) : PwCookie :=
  if c.session.getD false then { pw with expires := some (-1) }
  else
    match c.expirationDate with
    | some (some d) => { pw with expires := some d }
    | some none => { pw with expires := some (-1) }
    | none => pw

/-- The sameSite normalization (src/utils/cookie_handler.py lines 21-28):
`no_restriction` becomes None, `lax`/`strict` are capitalized,
`unspecified` becomes Lax, anything else leaves the key unset. -/
def applySameSite (c : EditorCookie) (pw : PwCookie) : PwCookie :=
  match c.sameSite with
  | none => pw
  | some ss =>
    let v := pyLower ss
    if v = "no_restriction" then { pw with sameSite := some "None" }
    else if v = "lax" then { pw with sameSite := some "Lax" }
    else if v = "strict" then { pw with sameSite := some "Strict" }
    else if v = "unspecified" then { pw with sameSite := some "Lax" }
    else pw

/-- The per-cookie body of the loop in `convert_cookie_editor_to_playwright`
(src/utils/cookie_handler.py lines 9-28): the three mutation phases of the
`pw_cookie` dict in program order. -/
def convertOne (c : EditorCookie) : PwCookie :=
  applySameSite c (applyExpires c (convertBase c))

/-- The completeness guard `all(key in pw_cookie for key in
['name', 'value', 'domain', 'path'])` (src/utils/cookie_handler.py line 30). -/
def pwComplete (pw : PwCookie) : Bool :=
  pw.name.isSome && pw.value.isSome && pw.domain.isSome && pw.path.isSome

/-- Embedding of `convert_cookie_editor_to_playwright`
(src/utils/cookie_handler.py lines 1-36): convert each entry and keep only
the complete ones; incomplete entries are skipped with a warning. -/
def convert_cookie_editor_to_playwright : List EditorCookie → List PwCookie
  | [] => []
  | c :: rest =>
    let pw := convertOne c
    if pwComplete pw then pw :: convert_cookie_editor_to_playwright rest
    else convert_cookie_editor_to_playwright rest

/-- The dict keys set on a `PwCookie`, mirroring the keys of the Python
`pw_cookie` dict. -/
def PwCookie.keySet (pw : PwCookie) : List String :=
  (if pw.name.isSome then ["name"] else [])
    ++ (if pw.value.isSome then ["value"] else [])
    ++ (if pw.domain.isSome then ["domain"] else [])
    ++ (if pw.path.isSome then ["path"] else [])
    ++ (if pw.httpOnly.isSome then ["httpOnly"] else [])
    ++ (if pw.secure.isSome then ["secure"] else [])
    ++ (if pw.expires.isSome then ["expires"] else [])
    ++ (if pw.sameSite.isSome then ["sameSite"] else [])

/-- The `allowed_keys` set from src/utils/cookie_handler.py line 6. -/
def allowedKeys : List String :=
  ["name", "value", "domain", "path", "expires", "httpOnly", "secure", "sameSite"]

/-- Embedding of the `while time.time() - start_time < timeout` loop of
`wait_for_ws_connected` (src/browser/ws_helper.py lines 99-109).
`oracle k` is the status `get_ws_status` reports on its k-th call inside the
loop, `dur k` the whole-second duration of that call, `rem` the seconds left
before the wall-clock deadline. Each iteration samples the status, returns
true on CONNECTED, and otherwise sleeps 1s, so the clock advances by
`dur i + 1`. The second component records the sampled statuses in order. -/
def wsWaitAux (oracle : Nat → WsStatus) (dur : Nat → Nat) (i rem : Nat) :
    Bool × List WsStatus :=
  if rem = 0 then (false, [])
  else
    let s := oracle i
    if s = .CONNECTED then (true, [s])
    else
      let r := wsWaitAux oracle dur (i + 1) (rem - (dur i + 1))
      (r.1, s :: r.2)
termination_by rem
decreasing_by omega

/-- Embedding of `wait_for_ws_connected` (src/browser/ws_helper.py lines
99-109) with its poll trace: starts the loop at elapsed time 0. -/
def wait_for_ws_connected (oracle : Nat → WsStatus) (dur : Nat → Nat)
    (timeout : Nat) : Bool × List WsStatus :=
  wsWaitAux oracle dur 0 timeout

/-- The page-interaction outcomes `reconnect_ws` ignores: whether the overlay
dismissal, the Disconnect click and the Connect click each reported success
(src/browser/ws_helper.py lines 121-133; all three results are discarded). -/
structure ReconnectEnv where
  dismissOk : Bool
  disconnectOk : Bool
  connectOk : Bool
deriving DecidableEq, Repr

/-- One observable action of `reconnect_ws`, in program order. -/
inductive RcEvent where
  | dismissOverlay
  | toggleDisconnect
  | toggleConnect
  | settle (secs : Nat)
  | sample (s : WsStatus)
  | poll (s : WsStatus)
deriving DecidableEq, Repr

/-- Result of one `reconnect_ws` run: the returned status, every
`get_ws_status` sample in order, and the full action trace. -/
structure ReconnectRun where
  result : WsStatus
  samples : List WsStatus
  events : List RcEvent
deriving DecidableEq, Repr

/-- Embedding of `reconnect_ws` (src/browser/ws_helper.py lines 112-146):
dismiss the interaction modal (result ignored), click Disconnect, sleep 2s,
sample the status once for the log, click Connect, sleep 2s, run
`wait_for_ws_connected` with timeout 15, then sample the status a final time
and return it — on both the success and the timeout branch.
`oracle k` is the k-th `get_ws_status` result of the run (index 0 is the
post-disconnect diagnostic sample); `dur k` its duration in whole seconds. -/
def reconnect_ws (_env : ReconnectEnv) (oracle : Nat → WsStatus)
    (dur : Nat → Nat) : ReconnectRun :=
  let diag := oracle 0
  let w := wait_for_ws_connected (fun k => oracle (k + 1))
    (fun k => dur (k + 1)) 15
  let final := oracle (w.2.length + 1)
  { result := final
  , samples := diag :: (w.2 ++ [final])
  , events :=
      [RcEvent.dismissOverlay, RcEvent.toggleDisconnect, RcEvent.settle 2,
        RcEvent.sample diag, RcEvent.toggleConnect, RcEvent.settle 2]
        ++ w.2.map RcEvent.poll ++ [RcEvent.sample final] }

theorem wsWaitAux_length_le (oracle : Nat → WsStatus) (dur : Nat → Nat) :
    ∀ rem i, (wsWaitAux oracle dur i rem).2.length ≤ rem := by
  intro rem
  induction rem using Nat.strong_induction_on with
  | _ rem ih =>
    intro i
    rw [wsWaitAux]
    split
    · simp
    · rename_i hrem
      by_cases hc : oracle i = WsStatus.CONNECTED
      · simp only [hc, if_pos rfl]
        simpa using Nat.one_le_iff_ne_zero.mpr hrem
      · simp only [if_neg hc, List.length_cons]
        have hlt : rem - (dur i + 1) < rem := by omega
        have := ih _ hlt (i + 1)
        omega

theorem wsWaitAux_ne_nil (oracle : Nat → WsStatus) (dur : Nat → Nat)
    (i rem : Nat) (h : rem ≠ 0) : (wsWaitAux oracle dur i rem).2 ≠ [] := by
  rw [wsWaitAux]
  split
  · exact absurd (by assumption) h
  · by_cases hc : oracle i = WsStatus.CONNECTED <;> simp [hc]

theorem wsWaitAux_connected_of (oracle : Nat → WsStatus) (dur : Nat → Nat)
    (i rem : Nat) (h : rem ≠ 0) (hc : oracle i = WsStatus.CONNECTED) :
    wsWaitAux oracle dur i rem = (true, [WsStatus.CONNECTED]) := by
  rw [wsWaitAux]
  split
  · exact absurd (by assumption) h
  · simp [hc]

/-- Discriminator for polling events in a `reconnect_ws` trace. -/
def isPollEvent : RcEvent → Bool
  | .poll _ => true
  | _ => false

theorem countP_map_poll (l : List WsStatus) :
    (l.map RcEvent.poll).countP isPollEvent = l.length := by
  induction l with
  | nil => rfl
  | cons s rest ih => simp [isPollEvent, ih]

/-- C1: for every sequence of statuses that `get_ws_status` may return and
every timing of those calls, `reconnect_ws` terminates within its bounded
budget — the CONNECTED-polling loop performs at most 15 polls, since every
iteration consumes at least one second of the 15-second deadline — and the
status it returns is exactly the last status `get_ws_status` sampled before
returning. -/
theorem reconnect_ws_bounded_returns_last (env : ReconnectEnv)
    (oracle : Nat → WsStatus) (dur : Nat → Nat) :
    ((reconnect_ws env oracle dur).events.countP isPollEvent ≤ 15) ∧
    (reconnect_ws env oracle dur).samples.getLast? =
      some (reconnect_ws env oracle dur).result := by
  constructor
  · have hlen := wsWaitAux_length_le (fun k => oracle (k + 1))
      (fun k => dur (k + 1)) 15 0
    simp only [reconnect_ws, wait_for_ws_connected, List.countP_append,
      List.countP_cons, List.countP_nil, countP_map_poll, isPollEvent]
    simp only [Bool.false_eq_true, if_false]
    omega
  · simp only [reconnect_ws]
    rw [← List.cons_append, List.getLast?_append_cons]
    rfl

/-- C2: `reconnect_ws` never short-circuits. For every status oracle —
including one that reports CONNECTED immediately — its action trace is the
full fixed sequence dismiss overlay, toggle Disconnect, settle 2s, sample
status, toggle Connect, settle 2s, followed by at least one CONNECTED poll
and the final sample that becomes the return value; and when the status is
CONNECTED throughout, the run returns CONNECTED. -/
theorem reconnect_ws_full_sequence (env : ReconnectEnv)
    (oracle : Nat → WsStatus) (dur : Nat → Nat) :
    (∃ polls : List WsStatus, polls ≠ [] ∧
      (reconnect_ws env oracle dur).events =
        [RcEvent.dismissOverlay, RcEvent.toggleDisconnect, RcEvent.settle 2,
          RcEvent.sample (oracle 0), RcEvent.toggleConnect, RcEvent.settle 2]
          ++ polls.map RcEvent.poll
          ++ [RcEvent.sample (reconnect_ws env oracle dur).result]) ∧
    ((∀ i, oracle i = WsStatus.CONNECTED) →
      (reconnect_ws env oracle dur).result = WsStatus.CONNECTED) := by
  constructor
  · exact ⟨(wait_for_ws_connected (fun k => oracle (k + 1))
        (fun k => dur (k + 1)) 15).2,
      wsWaitAux_ne_nil _ _ 0 15 (by decide), rfl⟩
  · intro h
    show oracle ((wsWaitAux (fun k => oracle (k + 1))
      (fun k => dur (k + 1)) 0 15).2.length + 1) = WsStatus.CONNECTED
    rw [wsWaitAux_connected_of _ _ 0 15 (by decide) (h 1)]
    exact h 2

/-- Witness for C2: with a status oracle that is CONNECTED throughout, the
reconnect run returns CONNECTED. -/
theorem reconnect_ws_full_sequence_spot :
    (reconnect_ws ⟨true, true, true⟩ (fun _ => WsStatus.CONNECTED)
      (fun _ => 0)).result = WsStatus.CONNECTED :=
  (reconnect_ws_full_sequence ⟨true, true, true⟩
    (fun _ => WsStatus.CONNECTED) (fun _ => 0)).2 (fun _ => rfl)

/-- C8: `get_ws_status` never throws — it totally evaluates to one of
CONNECTED, IDLE, CONNECTING, UNKNOWN — and it returns UNKNOWN whenever an
automation primitive raises, the Preview frame cannot be located, the
status indicator is not visible within the wait, its text is missing, or
its text matches none of the three tokens. -/
theorem get_ws_status_failure_collapses (env : StatusEnv) :
    (get_ws_status env = .CONNECTED ∨ get_ws_status env = .IDLE ∨
      get_ws_status env = .CONNECTING ∨ get_ws_status env = .UNKNOWN) ∧
    (env.raises = true → get_ws_status env = .UNKNOWN) ∧
    (env.frameOk = false → get_ws_status env = .UNKNOWN) ∧
    (env.indicatorVisible = false → get_ws_status env = .UNKNOWN) ∧
    (env.statusText = none → get_ws_status env = .UNKNOWN) ∧
    (∀ text, env.statusText = some text →
      containsSub (pyUpper text) "CONNECTED" = false →
      containsSub (pyUpper text) "IDLE" = false →
      containsSub (pyUpper text) "CONNECTING" = false →
      get_ws_status env = .UNKNOWN) := by
  obtain ⟨r, f, v, t⟩ := env
  refine ⟨?_, ?_, ?_, ?_, ?_, ?_⟩
  · cases h : get_ws_status ⟨r, f, v, t⟩ <;> simp
  · intro h
    have hr : r = true := h
    subst hr
    simp [get_ws_status]
  · intro h
    have hf : f = false := h
    subst hf
    cases r <;> simp [get_ws_status]
  · intro h
    have hv : v = false := h
    subst hv
    cases r <;> cases f <;> simp [get_ws_status]
  · intro h
    have ht : t = none := h
    subst ht
    cases r <;> cases f <;> cases v <;> simp [get_ws_status]
  · intro text ht h1 h2 h3
    have ht2 : t = some text := ht
    subst ht2
    cases r <;> cases f <;> cases v <;> simp [get_ws_status, h1, h2, h3]

/-- Witness for C8: a concrete page state where the indicator is visible but
its text matches no token collapses to UNKNOWN, and the classification is
one of the four statuses. -/
theorem get_ws_status_failure_collapses_spot :
    get_ws_status ⟨false, true, true, some "WS: OFFLINE"⟩ =
      WsStatus.UNKNOWN :=
  (get_ws_status_failure_collapses ⟨false, true, true, some "WS: OFFLINE"⟩).2.2.2.2.2
    "WS: OFFLINE" rfl (by decide) (by decide) (by decide)

/-- An element bounding box as reported by `bounding_box()`: position and
size. Playwright reports floats; the embedding carries integers (the code
truncates the sizes with `int(...)` where they feed `randint`). -/
structure Box where
  x : Int
  y : Int
  w : Int
  h : Int
deriving DecidableEq, Repr

/-- Python `random.randint(a, b)`: an inclusive-range draw fed by one value
`g` of the random stream; `a > b` raises ValueError, modelled as `none`. -/
def randint (a b : Int) (g : Nat) : Option Int :=
  if a ≤ b then some (a + (g : Int) % (b - a + 1)) else none

/-- Environment for one `dismiss_interaction_modal` call
(src/browser/ws_helper.py lines 149-193): whether the initial locator
raises, whether `div.interaction-modal` is present and visible within the
500ms wait, the Preview iframe's element count and bounding box, the
overlay's visibility at the check following each pointer step, and the
random stream. -/
structure DismissEnv where
  raises : Bool
  modalVisible0 : Bool
  iframeCount : Nat
  box : Option Box
  visAt : Nat → Bool
  rnd : Nat → Nat

/-- The `for i in range(30)` walk of `dismiss_interaction_modal`
(src/browser/ws_helper.py lines 173-187): draw a step of ±30/±20, clamp the
position to the box interior with a 20-unit margin, move the pointer, then
re-check the overlay; return true as soon as it is absent or not visible.
The second component is the list of pointer positions visited. -/
def dismissLoop (box : Box) (visAt : Nat → Bool) (rnd : Nat → Nat)
    (cx cy : Int) (i : Nat) : Nat → Bool × List (Int × Int)
  | 0 => (false, [])
  | fuel + 1 =>
    let dx := -30 + ((rnd (2 * i + 2) : Int) % 61)
    let dy := -20 + ((rnd (2 * i + 3) : Int) % 41)
    let nx := max (box.x + 20) (min (box.x + box.w - 20) (cx + dx))
    let ny := max (box.y + 20) (min (box.y + box.h - 20) (cy + dy))
    if !(visAt i) then (true, [(nx, ny)])
    else
      let r := dismissLoop box visAt rnd nx ny (i + 1) fuel
      (r.1, (nx, ny) :: r.2)

/-- Embedding of `dismiss_interaction_modal` (src/browser/ws_helper.py lines
149-193): nothing to do if the modal is absent or not visible; otherwise,
when the Preview iframe exists and its box is measurable, start at a random
interior point and walk for at most 30 steps; every failure path — locator
exception, missing iframe, unmeasurable box, a `randint` ValueError, or the
overlay surviving all 30 steps — returns false. -/
def dismiss_interaction_modal (env : DismissEnv) : Bool × List (Int × Int) :=
  if env.raises then (false, [])
  else if !env.modalVisible0 then (false, [])
  else if env.iframeCount = 0 then (false, [])
  else
    match env.box with
    | none => (false, [])
    | some box =>
      match randint 50 (box.w - 50) (env.rnd 0),
          randint 50 (box.h - 50) (env.rnd 1) with
      | some rx, some ry =>
        dismissLoop box env.visAt env.rnd (box.x + rx) (box.y + ry) 0 30
      | some _, none => (false, [])
      | none, _ => (false, [])

theorem dismissLoop_length_le (box : Box) (visAt : Nat → Bool)
    (rnd : Nat → Nat) :
    ∀ fuel cx cy i, (dismissLoop box visAt rnd cx cy i fuel).2.length ≤ fuel := by
  intro fuel
  induction fuel with
  | zero =>
    intro cx cy i
    simp [dismissLoop]
  | succ n ih =>
    intro cx cy i
    by_cases hv : visAt i <;> simp [dismissLoop, hv]
    exact ih _ _ _

theorem dismissLoop_false_of_all_visible (box : Box) (visAt : Nat → Bool)
    (rnd : Nat → Nat) :
    ∀ fuel cx cy i, (∀ k, k < fuel → visAt (i + k) = true) →
      (dismissLoop box visAt rnd cx cy i fuel).1 = false := by
  intro fuel
  induction fuel with
  | zero =>
    intro cx cy i _
    simp [dismissLoop]
  | succ n ih =>
    intro cx cy i hall
    have h0 : visAt i = true := by simpa using hall 0 (Nat.succ_pos n)
    simp only [dismissLoop, h0]
    simp only [Bool.not_true, Bool.false_eq_true, if_false]
    exact ih _ _ (i + 1) (fun k hk => by
      have := hall (k + 1) (Nat.succ_lt_succ hk)
      simpa [Nat.add_assoc, Nat.add_comm 1 k] using this)

theorem dismissLoop_true_exists (box : Box) (visAt : Nat → Bool)
    (rnd : Nat → Nat) :
    ∀ fuel cx cy i, (dismissLoop box visAt rnd cx cy i fuel).1 = true →
      ∃ k, k < fuel ∧ visAt (i + k) = false := by
  intro fuel
  induction fuel with
  | zero =>
    intro cx cy i h
    simp [dismissLoop] at h
  | succ n ih =>
    intro cx cy i h
    by_cases hv : visAt i
    · simp only [dismissLoop, hv, Bool.not_true, Bool.false_eq_true,
        if_false] at h
      obtain ⟨k, hk, hkf⟩ := ih _ _ (i + 1) h
      exact ⟨k + 1, Nat.succ_lt_succ hk, by
        simpa [Nat.add_assoc, Nat.add_comm 1 k] using hkf⟩
    · exact ⟨0, Nat.succ_pos n, by simpa using hv⟩

theorem dismissLoop_first_gone (box : Box) (visAt : Nat → Bool)
    (rnd : Nat → Nat) :
    ∀ fuel cx cy i j, j < fuel → visAt (i + j) = false →
      (∀ k, k < j → visAt (i + k) = true) →
      (dismissLoop box visAt rnd cx cy i fuel).1 = true ∧
        (dismissLoop box visAt rnd cx cy i fuel).2.length = j + 1 := by
  intro fuel
  induction fuel with
  | zero =>
    intro cx cy i j hj
    exact absurd hj (Nat.not_lt_zero j)
  | succ n ih =>
    intro cx cy i j hj hgone hbefore
    match j with
    | 0 =>
      have h0 : visAt i = false := by simpa using hgone
      simp [dismissLoop, h0]
    | j + 1 =>
      have h0 : visAt i = true := by simpa using hbefore 0 (Nat.succ_pos j)
      have hj2 := Nat.lt_of_succ_lt_succ hj
      have hg2 : visAt (i + 1 + j) = false := by
        simpa [Nat.add_assoc, Nat.add_comm 1 j] using hgone
      have hb2 : ∀ k, k < j → visAt (i + 1 + k) = true := fun k hk => by
        have := hbefore (k + 1) (Nat.succ_lt_succ hk)
        simpa [Nat.add_assoc, Nat.add_comm 1 k] using this
      simp only [dismissLoop, h0, Bool.not_true, Bool.false_eq_true, if_false]
      refine ⟨(ih _ _ (i + 1) j hj2 hg2 hb2).1, ?_⟩
      rw [List.length_cons, (ih _ _ (i + 1) j hj2 hg2 hb2).2]

/-- C3: `dismiss_interaction_modal` samples at most 30 pointer-walk steps;
it is a total function (every exception path collapses to false); it
returns false when the iframe box cannot be measured, and false when the
overlay stays visible through all 30 checks; it returns true only when some
check within the 30 steps observed the overlay gone; and on the first such
step it returns true immediately, having walked exactly that many steps. -/
theorem dismiss_interaction_modal_bounded_first (env : DismissEnv) :
    ((dismiss_interaction_modal env).2.length ≤ 30) ∧
    (env.box = none → (dismiss_interaction_modal env).1 = false) ∧
    ((∀ k, k < 30 → env.visAt k = true) →
      (dismiss_interaction_modal env).1 = false) ∧
    ((dismiss_interaction_modal env).1 = true →
      ∃ k, k < 30 ∧ env.visAt k = false) ∧
    (∀ j, j < 30 → env.visAt j = false →
      (∀ k, k < j → env.visAt k = true) →
      env.raises = false → env.modalVisible0 = true → env.iframeCount ≠ 0 →
      ∀ box, env.box = some box → 100 ≤ box.w → 100 ≤ box.h →
      (dismiss_interaction_modal env).1 = true ∧
        (dismiss_interaction_modal env).2.length = j + 1) := by
  refine ⟨?_, ?_, ?_, ?_, ?_⟩
  · unfold dismiss_interaction_modal
    split
    · simp
    · split
      · simp
      · split
        · simp
        · split
          · simp
          · split
            · exact dismissLoop_length_le _ _ _ 30 _ _ _
            · simp
            · simp
  · intro h
    unfold dismiss_interaction_modal
    rw [h]
    split
    · rfl
    · split
      · rfl
      · split
        · rfl
        · rfl
  · intro hall
    unfold dismiss_interaction_modal
    split
    · rfl
    · split
      · rfl
      · split
        · rfl
        · split
          · rfl
          · split
            · exact dismissLoop_false_of_all_visible _ _ _ 30 _ _ 0
                (fun k hk => by simpa using hall k hk)
            · rfl
            · rfl
  · intro h
    unfold dismiss_interaction_modal at h
    split at h
    · exact absurd h (by simp)
    · split at h
      · exact absurd h (by simp)
      · split at h
        · exact absurd h (by simp)
        · split at h
          · exact absurd h (by simp)
          · split at h
            · obtain ⟨k, hk, hkf⟩ := dismissLoop_true_exists _ _ _ 30 _ _ 0 h
              exact ⟨k, hk, by simpa using hkf⟩
            · exact absurd h (by simp)
            · exact absurd h (by simp)
  · intro j hj hgone hbefore hr hm hic box hob hw hh
    unfold dismiss_interaction_modal
    rw [hr, hm, hob]
    simp only [Bool.not_true, Bool.false_eq_true, if_false, if_neg hic]
    have hw2 : (50 : Int) ≤ box.w - 50 := by omega
    have hh2 : (50 : Int) ≤ box.h - 50 := by omega
    simp only [randint, if_pos hw2, if_pos hh2]
    exact dismissLoop_first_gone _ _ _ 30 _ _ 0 j hj
      (by simpa using hgone) (fun k hk => by simpa using hbefore k hk)

/-- Witness for C3: with the overlay observed gone at the fifth check
(index 4), the walk returns true after exactly five steps. -/
theorem dismiss_interaction_modal_bounded_first_spot :
    (dismiss_interaction_modal
      ⟨false, true, 1, some ⟨0, 0, 200, 200⟩,
        fun k => decide (k < 4), fun _ => 0⟩).1 = true ∧
    (dismiss_interaction_modal
      ⟨false, true, 1, some ⟨0, 0, 200, 200⟩,
        fun k => decide (k < 4), fun _ => 0⟩).2.length = 4 + 1 :=
  (dismiss_interaction_modal_bounded_first
    ⟨false, true, 1, some ⟨0, 0, 200, 200⟩,
      fun k => decide (k < 4), fun _ => 0⟩).2.2.2.2
    4 (by decide) (by decide) (fun k hk => by simp; omega)
    rfl rfl (by decide) ⟨0, 0, 200, 200⟩ rfl (by decide) (by decide)

/-- One synthetic pointer action emitted by `click_in_iframe`
(`page.mouse.move` / `page.mouse.click`). -/
inductive PtrEvent where
  | move (x y : Int)
  | click (x y : Int)
deriving DecidableEq, Repr

/-- Environment for one `click_in_iframe` call (src/browser/ws_helper.py
lines 196-241): whether a primitive raises, the Preview iframe's element
count and bounding box, and the random stream. -/
structure ClickEnv where
  raises : Bool
  iframeCount : Nat
  box : Option Box
  rnd : Nat → Nat

/-- The position of a pointer event, and its containment in the safe
sub-region. -/
def inSafeRegion (safeL safeR safeT safeB : Int) : PtrEvent → Prop
  | .move x y => safeL ≤ x ∧ x ≤ safeR ∧ safeT ≤ y ∧ y ≤ safeB
  | .click x y => safeL ≤ x ∧ x ≤ safeR ∧ safeT ≤ y ∧ y ≤ safeB

/-- The `for _ in range(random.randint(3, 6))` walk of `click_in_iframe`
(src/browser/ws_helper.py lines 227-233): draw a ±30/±20 step, re-clamp to
the safe region, and move the pointer; returns the emitted moves and the
final position. -/
def clickWalk (safeL safeR safeT safeB : Int) (rnd : Nat → Nat)
    (cx cy : Int) (i : Nat) : Nat → List PtrEvent × Int × Int
  | 0 => ([], cx, cy)
  | steps + 1 =>
    let dx := -30 + ((rnd (2 * i + 3) : Int) % 61)
    let dy := -20 + ((rnd (2 * i + 4) : Int) % 41)
    let nx := max safeL (min safeR (cx + dx))
    let ny := max safeT (min safeB (cy + dy))
    let r := clickWalk safeL safeR safeT safeB rnd nx ny (i + 1) steps
    (PtrEvent.move nx ny :: r.1, r.2)

/-- Embedding of `click_in_iframe` (src/browser/ws_helper.py lines
196-241): compute the safe sub-region of the iframe box (50 in from the
left, 200 from the right, 80 from the top, 50 from the bottom); return
false on a missing iframe, an unmeasurable box, or a degenerate region;
otherwise pick a random interior start, walk 3 to 6 clamped steps, and
click at the final position. The event list records every move and the
click. -/
def click_in_iframe (env : ClickEnv) : Bool × List PtrEvent :=
  if env.raises then (false, [])
  else if env.iframeCount = 0 then (false, [])
  else
    match env.box with
    | none => (false, [])
    | some box =>
      let safeL := box.x + 50
      let safeR := box.x + box.w - 200
      let safeT := box.y + 80
      let safeB := box.y + box.h - 50
      if safeR ≤ safeL ∨ safeB ≤ safeT then (false, [])
      else
        match randint safeL safeR (env.rnd 0),
            randint safeT safeB (env.rnd 1) with
        | some cx, some cy =>
          let n := 3 + env.rnd 2 % 4
          let w := clickWalk safeL safeR safeT safeB env.rnd cx cy 0 n
          (true, w.1 ++ [PtrEvent.click w.2.1 w.2.2])
        | some _, none => (false, [])
        | none, _ => (false, [])

theorem add_emod_range (a b : Int) (g : Nat) (h : a ≤ b) :
    a ≤ a + (g : Int) % (b - a + 1) ∧ a + (g : Int) % (b - a + 1) ≤ b := by
  have hpos : (0 : Int) < b - a + 1 := by omega
  have h1 : (0 : Int) ≤ (g : Int) % (b - a + 1) :=
    Int.emod_nonneg _ (by omega)
  have h2 : (g : Int) % (b - a + 1) < b - a + 1 :=
    Int.emod_lt_of_pos _ hpos
  omega

theorem randint_mem_of_some (a b : Int) (g : Nat) (v : Int)
    (h : randint a b g = some v) : a ≤ v ∧ v ≤ b := by
  unfold randint at h
  split at h
  · cases h
    exact add_emod_range a b g (by assumption)
  · cases h

theorem clickWalk_in_region (safeL safeR safeT safeB : Int)
    (rnd : Nat → Nat) (hLR : safeL ≤ safeR) (hTB : safeT ≤ safeB) :
    ∀ steps cx cy i, safeL ≤ cx → cx ≤ safeR → safeT ≤ cy → cy ≤ safeB →
      (∀ ev ∈ (clickWalk safeL safeR safeT safeB rnd cx cy i steps).1,
        inSafeRegion safeL safeR safeT safeB ev) ∧
      safeL ≤ (clickWalk safeL safeR safeT safeB rnd cx cy i steps).2.1 ∧
      (clickWalk safeL safeR safeT safeB rnd cx cy i steps).2.1 ≤ safeR ∧
      safeT ≤ (clickWalk safeL safeR safeT safeB rnd cx cy i steps).2.2 ∧
      (clickWalk safeL safeR safeT safeB rnd cx cy i steps).2.2 ≤ safeB := by
  intro steps
  induction steps with
  | zero =>
    intro cx cy i h1 h2 h3 h4
    exact ⟨by simp [clickWalk], h1, h2, h3, h4⟩
  | succ n ih =>
    intro cx cy i h1 h2 h3 h4
    have hnx1 : safeL ≤ max safeL (min safeR (cx + (-30 + ((rnd (2 * i + 3) : Int) % 61)))) := by omega
    have hnx2 : max safeL (min safeR (cx + (-30 + ((rnd (2 * i + 3) : Int) % 61)))) ≤ safeR := by omega
    have hny1 : safeT ≤ max safeT (min safeB (cy + (-20 + ((rnd (2 * i + 4) : Int) % 41)))) := by omega
    have hny2 : max safeT (min safeB (cy + (-20 + ((rnd (2 * i + 4) : Int) % 41)))) ≤ safeB := by omega
    have hrec := ih _ _ (i + 1) hnx1 hnx2 hny1 hny2
    simp only [clickWalk]
    refine ⟨?_, hrec.2.1, hrec.2.2.1, hrec.2.2.2.1, hrec.2.2.2.2⟩
    intro ev hev
    rcases List.mem_cons.mp hev with hev | hev
    · subst hev
      exact ⟨hnx1, hnx2, hny1, hny2⟩
    · exact hrec.1 ev hev

/-- C4: for every random seed and every measured page region,
`click_in_iframe` emits pointer events only inside the computed safe
sub-region (left edge plus 50, right edge minus 200, top edge plus 80,
bottom edge minus 50 of the iframe box), and when that region is
degenerate it returns false having emitted no pointer event. -/
theorem click_in_iframe_safe (env : ClickEnv) (box : Box)
    (hob : env.box = some box) :
    ((box.x + box.w - 200 ≤ box.x + 50 ∨
        box.y + box.h - 50 ≤ box.y + 80) →
      click_in_iframe env = (false, [])) ∧
    (∀ ev ∈ (click_in_iframe env).2,
      inSafeRegion (box.x + 50) (box.x + box.w - 200) (box.y + 80)
        (box.y + box.h - 50) ev) := by
  obtain ⟨r, ic, ob, rnd⟩ := env
  have hob2 : ob = some box := hob
  subst hob2
  constructor
  · intro hdeg
    cases r with
    | true => simp [click_in_iframe]
    | false =>
      by_cases hic : ic = 0
      · simp [click_in_iframe, hic]
      · simp only [click_in_iframe, Bool.false_eq_true, if_false,
          if_neg hic, if_pos hdeg]
  · intro ev hev
    cases r with
    | true => simp [click_in_iframe] at hev
    | false =>
      by_cases hic : ic = 0
      · simp [click_in_iframe, hic] at hev
      · by_cases hdeg : (box.x + box.w - 200 ≤ box.x + 50 ∨
            box.y + box.h - 50 ≤ box.y + 80)
        · simp only [click_in_iframe, Bool.false_eq_true, if_false,
            if_neg hic, if_pos hdeg] at hev
          simp at hev
        · push_neg at hdeg
          have hLR : box.x + 50 ≤ box.x + box.w - 200 := by omega
          have hTB : box.y + 80 ≤ box.y + box.h - 50 := by omega
          have hdeg2 : ¬(box.x + box.w - 200 ≤ box.x + 50 ∨
              box.y + box.h - 50 ≤ box.y + 80) := by omega
          simp only [click_in_iframe, Bool.false_eq_true, if_false,
            if_neg hic, if_neg hdeg2, randint, if_pos hLR, if_pos hTB] at hev
          have hcx := add_emod_range (box.x + 50) (box.x + box.w - 200)
            (rnd 0) hLR
          have hcy := add_emod_range (box.y + 80) (box.y + box.h - 50)
            (rnd 1) hTB
          have hwalk := clickWalk_in_region (box.x + 50)
            (box.x + box.w - 200) (box.y + 80) (box.y + box.h - 50) rnd
            hLR hTB (3 + rnd 2 % 4) _ _ 0 hcx.1 hcx.2 hcy.1 hcy.2
          rcases List.mem_append.mp hev with h | h
          · exact hwalk.1 ev h
          · simp only [List.mem_singleton] at h
            subst h
            exact ⟨hwalk.2.1, hwalk.2.2.1, hwalk.2.2.2.1, hwalk.2.2.2.2⟩

/-- Witness for C4: a 100-by-100 iframe yields a degenerate safe region, so
the keep-alive click returns false and emits nothing. -/
theorem click_in_iframe_safe_spot :
    click_in_iframe ⟨false, 1, some ⟨0, 0, 100, 100⟩, fun _ => 0⟩ =
      (false, []) :=
  (click_in_iframe_safe ⟨false, 1, some ⟨0, 0, 100, 100⟩, fun _ => 0⟩
    ⟨0, 0, 100, 100⟩ rfl).1 (by decide)

/-- The two per-profile guards of the launch loop in
`start_browser_instances` (src/main.py lines 90-107): whether the merged
`final_config` carries a `url` key and a `cookie_source` object. -/
structure InstanceProfile where
  hasUrl : Bool
  hasCookieSource : Bool
deriving DecidableEq, Repr

/-- One observable action of `start_browser_instances`: launching the
worker with 1-based index `i`, sleeping the stagger delay, or logging the
fatal startup error. -/
inductive LaunchEvent where
  | launch (i : Nat)
  | stagger (secs : Nat)
  | fatalError
deriving DecidableEq, Repr

/-- Embedding of the `for i, profile in enumerate(instance_profiles, 1)`
loop of `start_browser_instances` (src/main.py lines 83-116): break when
the running flag is observed false, skip a profile missing its url or its
cookie_source (a `continue`, which also skips the stagger), otherwise
start the worker process and, when `i < len(instance_profiles)`, sleep the
fixed 30s stagger. `running i` is the flag's value at the check opening
iteration `i`; `total` is `len(instance_profiles)`. -/
def launchLoop (running : Nat → Bool) (total : Nat) :
    List InstanceProfile → Nat → List LaunchEvent
  | [], _ => []
  | p :: rest, i =>
    if running i = false then []
    else if p.hasUrl = false then launchLoop running total rest (i + 1)
    else if p.hasCookieSource = false then
      launchLoop running total rest (i + 1)
    else if i < total then
      LaunchEvent.launch i :: LaunchEvent.stagger 30 ::
        launchLoop running total rest (i + 1)
    else
      LaunchEvent.launch i :: launchLoop running total rest (i + 1)

/-- The launch phase of `start_browser_instances` over a resolved profile
sequence: the loop starting at index 1 with the list's length as total. -/
def launch_all (running : Nat → Bool) (profiles : List InstanceProfile) :
    List LaunchEvent :=
  launchLoop running profiles.length profiles 1

/-- Modelled from the spec: the launch schedule it prescribes — one launch
per config in order starting at index `i`, a fixed 30s stagger strictly
between successive launches and none after the last. -/
def spacedLaunches : Nat → Nat → List LaunchEvent
  | _, 0 => []
  | i, 1 => [LaunchEvent.launch i]
  | i, n + 2 =>
    LaunchEvent.launch i :: LaunchEvent.stagger 30 ::
      spacedLaunches (i + 1) (n + 1)

/-- Discriminator for launch events. -/
def isLaunch : LaunchEvent → Bool
  | .launch _ => true
  | _ => false

theorem spacedLaunches_count :
    ∀ n i, (spacedLaunches i n).countP isLaunch = n := by
  intro n
  induction n using Nat.strong_induction_on with
  | _ n ih =>
    intro i
    match n with
    | 0 => rfl
    | 1 => rfl
    | n + 2 =>
      have := ih (n + 1) (by omega) (i + 1)
      simp [spacedLaunches, List.countP_cons, isLaunch, this]

theorem launchLoop_all_running (running : Nat → Bool) (total : Nat)
    (hr : ∀ i, running i = true) :
    ∀ l : List InstanceProfile, ∀ i, i + l.length = total + 1 →
      (∀ p ∈ l, p.hasUrl = true ∧ p.hasCookieSource = true) →
      launchLoop running total l i = spacedLaunches i l.length := by
  intro l
  induction l with
  | nil =>
    intro i _ _
    rfl
  | cons p rest ih =>
    intro i hlen hres
    have hp := hres p (List.mem_cons_self p rest)
    have hrest : ∀ q ∈ rest, q.hasUrl = true ∧ q.hasCookieSource = true :=
      fun q hq => hres q (List.mem_cons_of_mem p hq)
    simp only [launchLoop, hr i, hp.1, hp.2]
    simp only [Bool.true_eq_false, if_false]
    cases rest with
    | nil =>
      have hni : ¬(i < total) := by simp at hlen; omega
      simp [hni, spacedLaunches, launchLoop]
    | cons q rest2 =>
      have hlt : i < total := by simp at hlen; omega
      rw [if_pos hlt, ih (i + 1) (by simp at hlen ⊢; omega) hrest]
      rfl

theorem launchLoop_stops_early (running : Nat → Bool) (total k : Nat)
    (hk : running k = false) :
    ∀ l : List InstanceProfile, ∀ i, i ≤ k →
      (launchLoop running total l i).countP isLaunch ≤ k - i := by
  intro l
  induction l with
  | nil =>
    intro i _
    simp [launchLoop]
  | cons p rest ih =>
    intro i hik
    by_cases hstop : running i = false
    · simp [launchLoop, hstop]
    · have hik2 : i ≠ k := fun h => hstop (h ▸ hk)
      have hik3 : i + 1 ≤ k := by omega
      have hrec := ih (i + 1) hik3
      simp only [launchLoop, if_neg hstop]
      by_cases h1 : p.hasUrl = false
      · rw [if_pos h1]
        omega
      · rw [if_neg h1]
        by_cases h2 : p.hasCookieSource = false
        · rw [if_pos h2]
          omega
        · rw [if_neg h2]
          by_cases h3 : i < total
          · rw [if_pos h3]
            simp only [List.countP_cons, isLaunch]
            simp only [if_true, Bool.false_eq_true, if_false]
            omega
          · rw [if_neg h3]
            simp only [List.countP_cons, isLaunch]
            simp only [if_true]
            omega

/-- C5: over a fully resolved profile sequence, if the running flag stays
true then the launch loop performs exactly one launch per profile with the
fixed 30s stagger strictly between successive launches and none after the
last; and if the flag is false at some check within the sequence, strictly
fewer than N workers are launched. -/
theorem launch_all_spaced_or_early (running : Nat → Bool)
    (profiles : List InstanceProfile)
    (hres : ∀ p ∈ profiles, p.hasUrl = true ∧ p.hasCookieSource = true) :
    ((∀ i, running i = true) →
      launch_all running profiles = spacedLaunches 1 profiles.length ∧
      (launch_all running profiles).countP isLaunch = profiles.length) ∧
    (∀ k, 1 ≤ k → k ≤ profiles.length → running k = false →
      (launch_all running profiles).countP isLaunch < profiles.length) := by
  constructor
  · intro hr
    have heq := launchLoop_all_running running profiles.length hr profiles 1
      (by omega) hres
    exact ⟨heq, by rw [launch_all, heq, spacedLaunches_count]⟩
  · intro k hk1 hk2 hkf
    have := launchLoop_stops_early running profiles.length k hkf profiles 1
      hk1
    have : (launch_all running profiles).countP isLaunch ≤ k - 1 := this
    omega

/-- Witness for C5: three resolved profiles with the flag true throughout
launch as 1, stagger, 2, stagger, 3; with the flag flipping false at the
third check, fewer than three launches occur. -/
theorem launch_all_spaced_or_early_spot :
    (launch_all (fun _ => true)
        [⟨true, true⟩, ⟨true, true⟩, ⟨true, true⟩] =
      [LaunchEvent.launch 1, LaunchEvent.stagger 30, LaunchEvent.launch 2,
        LaunchEvent.stagger 30, LaunchEvent.launch 3]) ∧
    (launch_all (fun i => decide (i < 3))
        [⟨true, true⟩, ⟨true, true⟩, ⟨true, true⟩]).countP isLaunch < 3 :=
  ⟨((launch_all_spaced_or_early (fun _ => true)
      [⟨true, true⟩, ⟨true, true⟩, ⟨true, true⟩]
      (by decide)).1
        (fun _ => rfl)).1,
    (launch_all_spaced_or_early (fun i => decide (i < 3))
      [⟨true, true⟩, ⟨true, true⟩, ⟨true, true⟩]
      (by decide)).2
      3 (by decide) (by decide) (by decide)⟩

/-- Embedding of `clean_env_value` (src/utils/common.py lines 9-22):
strip the value and collapse blank results to absent. -/
def clean_env_value (v : Option String) : Option String :=
  match v with
  | none => none
  | some s =>
    let t := s.trim
    if t = "" then none else some t

/-- The kind of a detected cookie source (`source.type` in src/main.py). -/
inductive SourceType where
  | file
  | env_var
deriving DecidableEq, Repr

/-- A cookie source as produced by `CookieManager.detect_all_sources`
(external collaborator; only `type` and `identifier` are consumed by
src/main.py). -/
structure CookieSource where
  type : SourceType
  identifier : String
deriving DecidableEq, Repr

/-- The `global_settings` dict of `load_instance_configurations`
(src/main.py lines 31-38). -/
structure GlobalSettings where
  headless : String
  url : String
  proxy : Option String
deriving DecidableEq, Repr

/-- One per-instance profile dict built by `load_instance_configurations`
(src/main.py lines 50-64). `env_cookie_index` holds `int(env_index)`;
an identifier whose last underscore-separated token is not numeric would
make the Python `int()` call raise, modelled here as `none` (no claim
depends on that path). -/
structure InstanceConfig where
  cookie_file : Option String
  env_cookie_index : Option Nat
  cookie_source : CookieSource
deriving DecidableEq, Repr

/-- Embedding of `load_instance_configurations` (src/main.py lines
20-68): require a non-blank shared URL, assemble the global settings
(headless defaulting to `virtual`, optional proxy), require at least one
cookie source, and build one profile per source. The Python
`return None, None` failure exits are the `none` result. -/
def load_instance_configurations
    (envUrl envHeadless envProxy : Option String)
    (sources : List CookieSource) :
    Option (GlobalSettings × List InstanceConfig) :=
  match clean_env_value envUrl with
  | none => none
  | some shared_url =>
    let settings : GlobalSettings :=
      { headless := (clean_env_value envHeadless).getD "virtual"
      , url := shared_url
      , proxy := clean_env_value envProxy }
    if sources.isEmpty then none
    else
      some (settings, sources.map fun src =>
        match src.type with
        | .file =>
          { cookie_file := some src.identifier
          , env_cookie_index := none
          , cookie_source := src }
        | .env_var =>
          { cookie_file := none
          , env_cookie_index :=
              ((src.identifier.splitOn "_").getLastD "").toNat?
          , cookie_source := src })

/-- A profile built by `load_instance_configurations` always merges into a
final_config that has the shared url (from the global settings) and a
cookie_source object, so its launch-loop guards both pass. -/
def toLaunchProfile (_cfg : InstanceConfig) : InstanceProfile :=
  { hasUrl := true, hasCookieSource := true }

/-- Embedding of the startup phase of `start_browser_instances`
(src/main.py lines 70-116): resolve the configurations; when none resolve
(`if not instance_profiles`), log the fatal error and return without
launching; otherwise run the launch loop. -/
def start_browser_instances (envUrl envHeadless envProxy : Option String)
    (sources : List CookieSource) (running : Nat → Bool) :
    List LaunchEvent :=
  match load_instance_configurations envUrl envHeadless envProxy sources with
  | none => [LaunchEvent.fatalError]
  | some (_, profiles) =>
    if profiles.isEmpty then [LaunchEvent.fatalError]
    else launch_all running (profiles.map toLaunchProfile)

/-- C7: with zero resolved worker configurations — no cookie source found,
or the shared target URL missing or blank — startup is a hard failure: the
orchestrator logs the fatal error and launches zero worker processes. -/
theorem start_browser_instances_fatal_on_empty
    (envUrl envHeadless envProxy : Option String)
    (sources : List CookieSource) (running : Nat → Bool)
    (h : clean_env_value envUrl = none ∨ sources = []) :
    start_browser_instances envUrl envHeadless envProxy sources running =
      [LaunchEvent.fatalError] ∧
    (start_browser_instances envUrl envHeadless envProxy sources
        running).countP isLaunch = 0 := by
  have hmain : start_browser_instances envUrl envHeadless envProxy sources
      running = [LaunchEvent.fatalError] := by
    rcases h with h | h
    · simp [start_browser_instances, load_instance_configurations, h]
    · subst h
      unfold start_browser_instances load_instance_configurations
      cases clean_env_value envUrl <;> simp
  exact ⟨hmain, by rw [hmain]; rfl⟩

/-- Witness for C7: a missing shared URL with one detected cookie source
still aborts startup with the fatal error and zero launches. -/
theorem start_browser_instances_fatal_on_empty_spot :
    start_browser_instances none none none
        [⟨SourceType.file, "alpha.json"⟩] (fun _ => true) =
      [LaunchEvent.fatalError] ∧
    (start_browser_instances none none none
        [⟨SourceType.file, "alpha.json"⟩] (fun _ => true)).countP
      isLaunch = 0 :=
  start_browser_instances_fatal_on_empty none none none
    [⟨SourceType.file, "alpha.json"⟩] (fun _ => true) (Or.inl rfl)

/-- A worker process handle: its identity and whether `is_alive()` holds. -/
structure ProcHandle where
  pid : Nat
  alive : Bool
deriving DecidableEq, Repr

/-- Orchestrator state: the `app_running` flag and the
`browser_processes` list (src/main.py lines 14-17). -/
structure OrchState where
  app_running : Bool
  browser_processes : List ProcHandle
deriving DecidableEq, Repr

/-- The per-handle action of `signal_handler` (src/main.py lines 203-210):
a live process is terminated and joined with a 5s bound, escalating to
kill; a dead handle is left untouched. -/
def terminateHandle (p : ProcHandle) : ProcHandle :=
  if p.alive then { p with alive := false } else p

/-- Embedding of `signal_handler` (src/main.py lines 196-213): set
`app_running` false and terminate every live handle. The
`browser_processes` list itself is not modified — no handle is removed —
and the closing `sys.exit(0)` ends the process rather than the state
transition. -/
def signal_handler (s : OrchState) : OrchState :=
  { app_running := false
  , browser_processes := s.browser_processes.map terminateHandle }

theorem terminateHandle_idem (p : ProcHandle) :
    terminateHandle (terminateHandle p) = terminateHandle p := by
  by_cases h : p.alive <;> simp [terminateHandle, h]

theorem terminateHandle_dead (p : ProcHandle) :
    (terminateHandle p).alive = false := by
  by_cases h : p.alive <;> simp [terminateHandle, h]

/-- Counterexample to C6 as stated: after one `signal_handler` call on a
state holding one live handle, the `browser_processes` set is not empty —
the handler terminates handles but never removes them from the list. -/
theorem signal_handler_keeps_handles :
    (signal_handler ⟨true, [⟨1, true⟩]⟩).browser_processes ≠ [] := by
  decide

/-- C6 (amended): `signal_handler` is idempotent as a state transition and
calling it twice raises no error; each call sets the running flag false
and terminates every remaining handle with a bounded wait, so after either
call no handle in the set is alive — but the dead handles remain listed;
the set itself is not emptied. -/
theorem signal_handler_idempotent (s : OrchState) :
    signal_handler (signal_handler s) = signal_handler s ∧
    (signal_handler s).app_running = false ∧
    (∀ p ∈ (signal_handler s).browser_processes, p.alive = false) := by
  refine ⟨?_, rfl, ?_⟩
  · simp only [signal_handler, List.map_map]
    congr 1
    exact List.map_congr_left fun p _ => terminateHandle_idem p
  · intro p hp
    simp only [signal_handler, List.mem_map] at hp
    obtain ⟨q, _, hq⟩ := hp
    rw [← hq]
    exact terminateHandle_dead q

/-- Witness for C6 (amended): on a state with one live handle, a second
call changes nothing further, and the terminated handle in the list is
observed dead. -/
theorem signal_handler_idempotent_spot :
    signal_handler (signal_handler ⟨true, [⟨1, true⟩]⟩) =
      signal_handler ⟨true, [⟨1, true⟩]⟩ ∧
    (⟨1, false⟩ : ProcHandle).alive = false :=
  ⟨(signal_handler_idempotent ⟨true, [⟨1, true⟩]⟩).1,
    (signal_handler_idempotent ⟨true, [⟨1, true⟩]⟩).2.2 ⟨1, false⟩
      (by decide)⟩

/-- The numeric fields of the health endpoint's JSON payload
(src/main.py lines 162-171). -/
structure HealthReport where
  browser_instances : Nat
  running_instances : Nat
deriving DecidableEq, Repr

/-- Embedding of `health_check` (src/main.py lines 162-171): report the
handle count and the count of handles whose `is_alive()` holds; the
orchestrator state is passed through untouched — the endpoint only reads
`browser_processes`. -/
def health_check (s : OrchState) : HealthReport × OrchState :=
  ({ browser_instances := s.browser_processes.length
    , running_instances := s.browser_processes.countP (fun p => p.alive) },
    s)

/-- The per-launch mutation of the launch loop (src/main.py lines
109-111): append the freshly started worker's handle to
`browser_processes`. -/
def recordLaunch (s : OrchState) (p : ProcHandle) : OrchState :=
  { s with browser_processes := s.browser_processes ++ [p] }

/-- An event outside the orchestrator's control: the worker process with
the given pid exits, so its handle's `is_alive()` turns false. -/
def markDead (pid : Nat) (s : OrchState) : OrchState :=
  { s with browser_processes :=
      s.browser_processes.map fun p =>
        if p.pid = pid then { p with alive := false } else p }

/-- One sweep of the supervision loop (src/main.py lines 121-125): iterate
over a copy of `browser_processes`, remove each handle observed not alive
(`list.remove` drops the first equal element, which for distinct process
objects is the handle itself), and briefly join the live ones. The net
effect of a pass is to keep exactly the alive handles. -/
def superviseSweep (s : OrchState) : OrchState :=
  { s with browser_processes :=
      s.browser_processes.filter (fun p => p.alive) }

/-- Counterexample to C9 as stated: launch two workers, let the first die
and a supervision sweep reap it — a state reachable in server mode, where
the sweep runs concurrently with the Flask endpoint — and the health query
reports `browser_instances = 1`, not the total number of workers launched
(2): `len(browser_processes)` undercounts the launch total once a dead
handle has been removed. -/
theorem health_check_undercounts_launched :
    (health_check (superviseSweep (markDead 1
      (recordLaunch (recordLaunch ⟨true, []⟩ ⟨1, true⟩)
        ⟨2, true⟩)))).1.browser_instances = 1 ∧
    (health_check (superviseSweep (markDead 1
      (recordLaunch (recordLaunch ⟨true, []⟩ ⟨1, true⟩)
        ⟨2, true⟩)))).1.browser_instances ≠ 2 := by
  decide

/-- C9 (amended): the health query returns the number of handles currently
tracked in `browser_processes` — the workers launched minus those already
reaped by the supervision sweep, so it can undercount the historical
launch total — together with the number currently alive; and it is
read-only: for every orchestrator state it leaves the handle set and the
running flag unchanged. -/
theorem health_check_read_only (s : OrchState) :
    (health_check s).2 = s ∧
    (health_check s).2.browser_processes = s.browser_processes ∧
    (health_check s).2.app_running = s.app_running ∧
    (health_check s).1.browser_instances = s.browser_processes.length ∧
    (health_check s).1.running_instances =
      s.browser_processes.countP (fun p => p.alive) :=
  ⟨rfl, rfl, rfl, rfl, rfl⟩

theorem applyExpires_keeps (c : EditorCookie) (pw : PwCookie) :
    (applyExpires c pw).name = pw.name ∧
    (applyExpires c pw).value = pw.value ∧
    (applyExpires c pw).domain = pw.domain ∧
    (applyExpires c pw).path = pw.path ∧
    (applyExpires c pw).sameSite = pw.sameSite := by
  by_cases h : c.session.getD false = true
  · simp [applyExpires, h]
  · simp only [applyExpires, h, Bool.false_eq_true, if_false]
    cases hed : c.expirationDate with
    | none => simp
    | some d => cases d <;> simp

theorem applySameSite_keeps (c : EditorCookie) (pw : PwCookie) :
    (applySameSite c pw).name = pw.name ∧
    (applySameSite c pw).value = pw.value ∧
    (applySameSite c pw).domain = pw.domain ∧
    (applySameSite c pw).path = pw.path ∧
    (applySameSite c pw).expires = pw.expires := by
  unfold applySameSite
  cases hss : c.sameSite with
  | none => simp
  | some ss =>
    dsimp only
    split_ifs <;> simp

theorem applySameSite_values (c : EditorCookie) (pw : PwCookie) :
    (applySameSite c pw).sameSite = pw.sameSite ∨
    (applySameSite c pw).sameSite = some "None" ∨
    (applySameSite c pw).sameSite = some "Lax" ∨
    (applySameSite c pw).sameSite = some "Strict" := by
  unfold applySameSite
  cases hss : c.sameSite with
  | none => simp
  | some ss =>
    dsimp only
    split_ifs <;> simp

theorem convertOne_session_expires (c : EditorCookie)
    (h : c.session.getD false = true) :
    (convertOne c).expires = some (-1) := by
  have hkeep := (applySameSite_keeps c (applyExpires c (convertBase c))).2.2.2.2
  rw [convertOne, hkeep]
  simp [applyExpires, h]

theorem convertOne_sameSite_normalized (c : EditorCookie) :
    (convertOne c).sameSite = none ∨
    (convertOne c).sameSite = some "None" ∨
    (convertOne c).sameSite = some "Lax" ∨
    (convertOne c).sameSite = some "Strict" := by
  have hbase := (applyExpires_keeps c (convertBase c)).2.2.2.2
  rcases applySameSite_values c (applyExpires c (convertBase c)) with
    h | h | h | h
  · left
    rw [convertOne, h, hbase]
    rfl
  · right; left; exact h
  · right; right; left; exact h
  · right; right; right; exact h

theorem mem_convert_editor (cookies : List EditorCookie) :
    ∀ pw ∈ convert_cookie_editor_to_playwright cookies,
      ∃ c ∈ cookies, pw = convertOne c ∧ pwComplete pw = true := by
  induction cookies with
  | nil =>
    intro pw hpw
    simp [convert_cookie_editor_to_playwright] at hpw
  | cons c rest ih =>
    intro pw hpw
    by_cases hc : pwComplete (convertOne c) = true
    · simp only [convert_cookie_editor_to_playwright, if_pos hc] at hpw
      rcases List.mem_cons.mp hpw with h | h
      · exact ⟨c, List.mem_cons_self c rest, h, h ▸ hc⟩
      · obtain ⟨d, hd, hdq⟩ := ih pw h
        exact ⟨d, List.mem_cons_of_mem c hd, hdq⟩
    · simp only [convert_cookie_editor_to_playwright, if_neg hc] at hpw
      obtain ⟨d, hd, hdq⟩ := ih pw hpw
      exact ⟨d, List.mem_cons_of_mem c hd, hdq⟩

theorem convertOne_mem_of_complete (cookies : List EditorCookie) :
    ∀ c ∈ cookies, pwComplete (convertOne c) = true →
      convertOne c ∈ convert_cookie_editor_to_playwright cookies := by
  induction cookies with
  | nil =>
    intro c hc
    simp at hc
  | cons d rest ih =>
    intro c hc hcomp
    simp only [convert_cookie_editor_to_playwright]
    rcases List.mem_cons.mp hc with h | h
    · subst h
      rw [if_pos hcomp]
      exact List.mem_cons_self _ _
    · by_cases hd : pwComplete (convertOne d) = true
      · rw [if_pos hd]
        exact List.mem_cons_of_mem _ (ih c h hcomp)
      · rw [if_neg hd]
        exact ih c h hcomp

theorem mem_if_single {c : Prop} [Decidable c] {a k : String}
    (h : k ∈ (if c then [a] else ([] : List String))) : k = a := by
  by_cases hc : c
  · rw [if_pos hc] at h
    simpa using h
  · rw [if_neg hc] at h
    simp at h

theorem keySet_sub_allowed (pw : PwCookie) :
    ∀ k ∈ pw.keySet, k ∈ allowedKeys := by
  intro k hk
  simp only [PwCookie.keySet, List.mem_append] at hk
  rcases hk with (((((((h | h) | h) | h) | h) | h) | h) | h) <;>
    (rw [mem_if_single h]; simp [allowedKeys])

/-- C10: every cookie emitted by `convert_cookie_editor_to_playwright` has
all four of name, value, domain and path — an input missing any of them is
dropped whole, never passed through partially; a complete input survives
to the output; a session-flagged input's conversion carries expires = -1;
the output carries only keys from the Playwright-allowed set; and sameSite
is normalized to None, Lax or Strict, or omitted. -/
theorem convert_cookie_editor_invariants (cookies : List EditorCookie) :
    (∀ pw ∈ convert_cookie_editor_to_playwright cookies,
      pw.name.isSome = true ∧ pw.value.isSome = true ∧
      pw.domain.isSome = true ∧ pw.path.isSome = true) ∧
    (∀ c ∈ cookies, pwComplete (convertOne c) = true →
      convertOne c ∈ convert_cookie_editor_to_playwright cookies) ∧
    (∀ c : EditorCookie, c.session.getD false = true →
      (convertOne c).expires = some (-1)) ∧
    (∀ pw ∈ convert_cookie_editor_to_playwright cookies,
      ∀ k ∈ pw.keySet, k ∈ allowedKeys) ∧
    (∀ pw ∈ convert_cookie_editor_to_playwright cookies,
      pw.sameSite = none ∨ pw.sameSite = some "None" ∨
      pw.sameSite = some "Lax" ∨ pw.sameSite = some "Strict") := by
  refine ⟨?_, convertOne_mem_of_complete cookies,
    fun c h => convertOne_session_expires c h, ?_, ?_⟩
  · intro pw hpw
    obtain ⟨c, _, _, hcomp⟩ := mem_convert_editor cookies pw hpw
    simp only [pwComplete, Bool.and_eq_true] at hcomp
    exact ⟨hcomp.1.1.1, hcomp.1.1.2, hcomp.1.2, hcomp.2⟩
  · intro pw _
    exact keySet_sub_allowed pw
  · intro pw hpw
    obtain ⟨c, _, hpc, _⟩ := mem_convert_editor cookies pw hpw
    rw [hpc]
    exact convertOne_sameSite_normalized c

/-- Witness for C10: a complete session cookie exported with
`no_restriction` converts to a kept cookie with expires -1 and sameSite
None. -/
theorem convert_cookie_editor_invariants_spot :
    (convertOne ⟨some "sid", some "v", some ".example.com", some "/",
        some false, some true, some true, none, some "no_restriction"⟩
      ∈ convert_cookie_editor_to_playwright
        [⟨some "sid", some "v", some ".example.com", some "/",
          some false, some true, some true, none, some "no_restriction"⟩]) ∧
    (convertOne ⟨some "sid", some "v", some ".example.com", some "/",
        some false, some true, some true, none,
        some "no_restriction"⟩).expires = some (-1) :=
  ⟨(convert_cookie_editor_invariants
      [⟨some "sid", some "v", some ".example.com", some "/",
        some false, some true, some true, none,
        some "no_restriction"⟩]).2.1
      ⟨some "sid", some "v", some ".example.com", some "/",
        some false, some true, some true, none, some "no_restriction"⟩
      (List.mem_singleton.mpr rfl) (by decide),
    (convert_cookie_editor_invariants
      [⟨some "sid", some "v", some ".example.com", some "/",
        some false, some true, some true, none,
        some "no_restriction"⟩]).2.2.1
      ⟨some "sid", some "v", some ".example.com", some "/",
        some false, some true, some true, none, some "no_restriction"⟩
      rfl⟩

end ASP
